import Mathlib

/-!
Verification of the pacman acquisition ingestion engine
(`churchland_pipeline_python/tasks/pacman/pacman_acquisition.py`).

The Python module is embedded shallowly:

* A trial's parameter record (the dictionary produced by
  `speedgoat.readtrialparams`) is an association list of string keys and
  `Value`s (scalars, strings, numeric arrays).
* `ConditionParams.parseparams` becomes `parseparams`, returning `none`
  where the Python raises (`KeyError`, indexing a non-array, and the
  `UnboundLocalError` on an unrecognised `type` tag).
* The relational store is a `DB` of explicit row lists, one per part table
  of `ConditionParams`; DataJoint's restriction / join / antijoin used in
  `Behavior.make` becomes the decidable match `condMatchesB`, and the
  smallest-unused-id allocation (`next(i for i in range(2+max(ids)) ...)`)
  becomes `allocId`.
* `Behavior.make` becomes `make`, with its two passes `pass1` (condition
  catalog from parameter files) and `pass2` (trial binding from data files);
  an uncaught Python exception is `none`.  The external `speedgoat`
  readers are out of scope (per the spec they are collaborators): a data
  file carries its already-decoded payload.
-/

namespace PacmanAcq

/-- A decoded value from a Speedgoat parameter file: a scalar number, a
string, or a numeric array. -/
inductive Value where
  | num (q : ℚ)
  | str (s : String)
  | arr (l : List ℚ)
deriving DecidableEq

/-- A trial parameter record: the key/value dictionary built by
`speedgoat.readtrialparams` (keys are unique in a Python dict). -/
abbrev RawParams := List (String × Value)

/-- Lookup `params[k]` as an option: `none` models a raised `KeyError`. -/
def getVal (p : RawParams) (k : String) : Option Value :=
  p.lookup k

/-- Lookup `params[k][i]` for an array value: `none` models `KeyError`,
indexing a non-array, or an out-of-range index. -/
def getArrEl (p : RawParams) (k : String) (i : ℕ) : Option ℚ :=
  match getVal p k with
  | some (Value.arr l) => l.get? i
  | _ => none

/-- ASCII `[A-Z]` from the regex `stim([A-Z]\w*)`. -/
def isUpperAZ (c : Char) : Bool :=
  'A' ≤ c && c ≤ 'Z'

/-- Word character `\w` for ASCII keys. -/
def isWordChar (c : Char) : Bool :=
  c.isAlpha || c.isDigit || c = '_'

/-- Python `str.lower()` on one character of an ASCII key. -/
def lowerChar (c : Char) : Char :=
  if isUpperAZ c then Char.ofNat (c.toNat + 32) else c

/-- Python `str.lower()` on the (ASCII) fragment captured from a key. -/
def lowerStr (s : String) : String :=
  String.mk (s.data.map lowerChar)

/-- Attempt to match `stim([A-Z]\w*)` at the head of the character list,
returning group 1 (greedy `\w*`). -/
def stimMatchAt (cs : List Char) : Option String :=
  match cs with
  | 's' :: 't' :: 'i' :: 'm' :: c :: rest =>
      if isUpperAZ c then some (String.mk (c :: rest.takeWhile isWordChar)) else none
  | _ => none

/-- Search (`re.search`) for the pattern `stim([A-Z]\w*)`: leftmost match wins. -/
def stimSearch : List Char → Option String
  | [] => none
  | c :: rest =>
      match stimMatchAt (c :: rest) with
      | some g => some g
      | none => stimSearch rest

/-- Run `prog.search(k)` on a key, returning group 1 when the key matches. -/
def stimKey (k : String) : Option String :=
  stimSearch k.toList

/-- Test `params.get('stim') == 1`: the stimulation flag is at its "on"
sentinel (absent key compares unequal, as in Python). -/
def stimFlagOn (p : RawParams) : Bool :=
  getVal p "stim" == some (Value.num 1)

/-- The stimulation attribute dictionary built by `parseparams`:
`{'stim_' + prog.search(k).group(1).lower(): v for k, v in params.items()
if prog.search(k) is not None and k != 'stimDelay'}`. -/
def stimDict (p : RawParams) : List (String × Value) :=
  p.filterMap fun kv =>
    match stimKey kv.1 with
    | some g => if kv.1 = "stimDelay" then none else some ("stim_" ++ lowerStr g, kv.2)
    | none => none

/-- Attributes of the `ConditionParams.Force` part table. -/
structure ForceAttr where
  force_max : Value
  force_offset : Value
  force_inverted : Bool
deriving DecidableEq

/-- Attributes of the `ConditionParams.Stim` part table (its eight
declared secondary columns). -/
structure StimAttr where
  stim_current : Value
  stim_electrode : Value
  stim_polarity : Value
  stim_pulses : Value
  stim_width1 : Value
  stim_width2 : Value
  stim_interphase : Value
  stim_frequency : Value
deriving DecidableEq

/-- Attributes of the `ConditionParams.Target` part table. -/
structure TargetAttr where
  target_duration : Value
  target_offset : ℚ
  target_pad : Value
deriving DecidableEq

/-- The target-profile variant (`params['type']` dispatch): Static has no
extra attributes, Ramp an amplitude, Sine amplitude and frequency, Chirp
amplitude and initial/final frequency. -/
inductive TargetType where
  | static
  | ramp (target_amplitude : ℚ)
  | sine (target_amplitude target_frequency : ℚ)
  | chirp (target_amplitude target_frequency_init target_frequency_final : ℚ)
deriving DecidableEq

/-- A full attribute bundle as consumed by condition resolution: Force
attributes, the Stim group (`none` when `parseparams` marked it absent via
the `Force - Stim` antijoin), Target attributes and the variant. -/
structure Bundle where
  force : ForceAttr
  stim : Option StimAttr
  target : TargetAttr
  targetType : TargetType
deriving DecidableEq

/-- The declared column names of `ConditionParams.Stim`. -/
def stimFields : List String :=
  ["stim_current", "stim_electrode", "stim_polarity", "stim_pulses",
   "stim_width1", "stim_width2", "stim_interphase", "stim_frequency"]

/-- Views the dynamic stimulation dictionary as a `StimAttr` row: all
eight declared columns must be present and no key may fall outside the
declared columns (otherwise DataJoint's `insert1` of the row into
`ConditionParams.Stim` raises). -/
def structuredStim (d : List (String × Value)) : Option StimAttr :=
  if d.all (fun kv => stimFields.contains kv.1) then do
    let c ← d.lookup "stim_current"
    let e ← d.lookup "stim_electrode"
    let pol ← d.lookup "stim_polarity"
    let pu ← d.lookup "stim_pulses"
    let w1 ← d.lookup "stim_width1"
    let w2 ← d.lookup "stim_width2"
    let ip ← d.lookup "stim_interphase"
    let fr ← d.lookup "stim_frequency"
    pure ⟨c, e, pol, pu, w1, w2, ip, fr⟩
  else none

/-- Force attribute extraction of `parseparams`: `force_max =
params['frcMax']`, `force_offset = params['frcOff']`, `force_inverted =
(params['frcPol'] == -1)` (a non-numeric value compares unequal, as in
Python). -/
def parseForce (p : RawParams) : Option ForceAttr := do
  let m ← getVal p "frcMax"
  let o ← getVal p "frcOff"
  let pol ← getVal p "frcPol"
  pure ⟨m, o, pol == Value.num (-1)⟩

/-- Target attribute extraction of `parseparams`: duration, first element
of the offset array, and pad duration. -/
def parseTarget (p : RawParams) : Option TargetAttr := do
  let dur ← getVal p "duration"
  let off ← getArrEl p "offset" 0
  let pad ← getVal p "padDur"
  pure ⟨dur, off, pad⟩

/-- Target-type dispatch of `parseparams` on `params['type']`.  A tag
outside STA/RMP/SIN/CHP leaves `targ_type_rel` unbound in the Python and
raises `UnboundLocalError`: modelled as `none`. -/
def parseTargetType (p : RawParams) : Option TargetType := do
  let ty ← getVal p "type"
  if ty == Value.str "STA" then
    pure TargetType.static
  else if ty == Value.str "RMP" then do
    let a ← getArrEl p "amplitude" 0
    pure (TargetType.ramp a)
  else if ty == Value.str "SIN" then do
    let a ← getArrEl p "amplitude" 0
    let f ← getArrEl p "frequency" 0
    pure (TargetType.sine a f)
  else if ty == Value.str "CHP" then do
    let a ← getArrEl p "amplitude" 0
    let f0 ← getArrEl p "frequency" 0
    let f1 ← getArrEl p "frequency" 1
    pure (TargetType.chirp a f0 f1)
  else
    none

/-- Embedding of `ConditionParams.parseparams`: parses one parameter record into the
attribute bundle.  `bundle.stim = none` records the `cond_rel =
Force - Stim` antijoin branch (stimulation flag unset); with the flag set
the dynamic dictionary is viewed as a `ConditionParams.Stim` row. -/
def parseparams (p : RawParams) : Option Bundle := do
  let f ← parseForce p
  let s : Option StimAttr ←
    if stimFlagOn p then (structuredStim (stimDict p)).map some else some none
  let t ← parseTarget p
  let tt ← parseTargetType p
  pure ⟨f, s, t, tt⟩

/-- A row of `ConditionParams.Force`. -/
structure ForceRow where
  condition_id : ℕ
  force_id : ℕ
  attr : ForceAttr
deriving DecidableEq

/-- A row of `ConditionParams.Stim`. -/
structure StimRow where
  condition_id : ℕ
  stim_id : ℕ
  attr : StimAttr
deriving DecidableEq

/-- A row of `ConditionParams.Target`. -/
structure TargetRow where
  condition_id : ℕ
  target_id : ℕ
  attr : TargetAttr
deriving DecidableEq

/-- A row of `ConditionParams.Static` (no secondary attributes). -/
structure StaticRow where
  condition_id : ℕ
  target_id : ℕ
deriving DecidableEq

/-- A row of `ConditionParams.Ramp`. -/
structure RampRow where
  condition_id : ℕ
  target_id : ℕ
  target_amplitude : ℚ
deriving DecidableEq

/-- A row of `ConditionParams.Sine`. -/
structure SineRow where
  condition_id : ℕ
  target_id : ℕ
  target_amplitude : ℚ
  target_frequency : ℚ
deriving DecidableEq

/-- A row of `ConditionParams.Chirp`. -/
structure ChirpRow where
  condition_id : ℕ
  target_id : ℕ
  target_amplitude : ℚ
  target_frequency_init : ℚ
  target_frequency_final : ℚ
deriving DecidableEq

/-- The `ConditionParams` table and its part tables, as row lists in
insertion order. -/
structure DB where
  conditions : List ℕ
  force : List ForceRow
  stim : List StimRow
  target : List TargetRow
  static : List StaticRow
  ramp : List RampRow
  sine : List SineRow
  chirp : List ChirpRow
deriving DecidableEq

/-- The empty registry. -/
def DB.empty : DB :=
  ⟨[], [], [], [], [], [], [], []⟩

/-- Id allocation as written in `Behavior.make`: `0` when the table is
empty (`if not(rel())`), otherwise
`next(i for i in range(2 + max(ids)) if i not in ids)`. -/
def allocId (ids : List ℕ) : ℕ :=
  if ids.isEmpty then 0
  else ((List.range (2 + ids.foldr max 0)).filter (fun i => !(decide (i ∈ ids)))).headD 0

/-- Sub-group id resolution of `Behavior.make`: if some row of the part
table carries exactly these attributes, reuse its id
(`fetch(cond_part_id, limit=1)[0]`), otherwise allocate a fresh one with
`allocId` over the part table's id column. -/
def resolvePartId {α : Type} [DecidableEq α] (rows : List (ℕ × α)) (attr : α) : ℕ :=
  match (rows.filter (fun r => decide (r.2 = attr))).head? with
  | some r => r.1
  | none => allocId (rows.map Prod.fst)

/-- Nonemptiness of `cond_rel & all_cond_attr` at one `condition_id`: the
natural join of `Force` (`* Stim` or `- Stim` by Stim presence), `Target`
and the variant part table, restricted to the bundle's attribute values,
has a row for this condition. -/
def condMatchesB (db : DB) (b : Bundle) (c : ℕ) : Bool :=
  (db.force.any fun r => c == r.condition_id && decide (r.attr = b.force)) &&
  (match b.stim with
   | some s => db.stim.any fun r => c == r.condition_id && decide (r.attr = s)
   | none => !(db.stim.any fun r => c == r.condition_id)) &&
  (db.target.any fun r =>
    c == r.condition_id && decide (r.attr = b.target) &&
    (match b.targetType with
     | TargetType.static =>
         db.static.any fun v => c == v.condition_id && v.target_id == r.target_id
     | TargetType.ramp a =>
         db.ramp.any fun v =>
           c == v.condition_id && v.target_id == r.target_id && decide (v.target_amplitude = a)
     | TargetType.sine a f =>
         db.sine.any fun v =>
           c == v.condition_id && v.target_id == r.target_id &&
           decide (v.target_amplitude = a) && decide (v.target_frequency = f)
     | TargetType.chirp a f0 f1 =>
         db.chirp.any fun v =>
           c == v.condition_id && v.target_id == r.target_id &&
           decide (v.target_amplitude = a) && decide (v.target_frequency_init = f0) &&
           decide (v.target_frequency_final = f1)))

/-- The condition ids matching a bundle (`cond_rel & all_cond_attr`
projected to `condition_id`), in table order. -/
def matchingConds (db : DB) (b : Bundle) : List ℕ :=
  db.conditions.filter (condMatchesB db b)

/-- The new-condition branch of `Behavior.make` (lines 293-330): allocate
a `condition_id`, resolve-or-allocate each present sub-group id, and
insert the condition row, its Force / Stim / Target rows and its variant
row. -/
def createCondition (db : DB) (b : Bundle) : ℕ × DB :=
  let c := allocId db.conditions
  let conditions' := db.conditions ++ [c]
  let fid := resolvePartId (db.force.map fun r => (r.force_id, r.attr)) b.force
  let force' := db.force ++ [⟨c, fid, b.force⟩]
  let stim' :=
    match b.stim with
    | none => db.stim
    | some s => db.stim ++ [⟨c, resolvePartId (db.stim.map fun r => (r.stim_id, r.attr)) s, s⟩]
  let tid := resolvePartId (db.target.map fun r => (r.target_id, r.attr)) b.target
  let target' := db.target ++ [⟨c, tid, b.target⟩]
  match b.targetType with
  | TargetType.static =>
      (c, ⟨conditions', force', stim', target', db.static ++ [⟨c, tid⟩], db.ramp, db.sine, db.chirp⟩)
  | TargetType.ramp a =>
      (c, ⟨conditions', force', stim', target', db.static, db.ramp ++ [⟨c, tid, a⟩], db.sine, db.chirp⟩)
  | TargetType.sine a f =>
      (c, ⟨conditions', force', stim', target', db.static, db.ramp, db.sine ++ [⟨c, tid, a, f⟩], db.chirp⟩)
  | TargetType.chirp a f0 f1 =>
      (c, ⟨conditions', force', stim', target', db.static, db.ramp, db.sine, db.chirp ++ [⟨c, tid, a, f0, f1⟩]⟩)

/-- The `ConditionRegistry.resolveOrCreate` contract as `Behavior.make`
implements it: reuse the existing exact structural match when
`cond_rel & all_cond_attr` is nonempty, otherwise create the condition. -/
def resolveOrCreate (db : DB) (b : Bundle) : ℕ × DB :=
  match matchingConds db b with
  | [] => createCondition db b
  | c :: _ => (c, db)

/-- Fetch (`fetch1('condition_id')`) over `cond_rel & all_cond_attr` in the
trial-binding pass: succeeds only when exactly one condition matches. -/
def fetchCondId (db : DB) (b : Bundle) : Option ℕ :=
  match matchingConds db b with
  | [c] => some c
  | _ => none

/-- A `.params` file of the recording: its trial-number token (the
`beh_(\d*)` group of the filename) and the record read by
`speedgoat.readtrialparams`. -/
structure ParamFile where
  trial : ℕ
  params : RawParams
deriving DecidableEq

/-- The payload decoded from a `.data` file by the external
`speedgoat.readtrialdata` (time-aligned signals and the success flag);
only its identity matters to the engine, so the signal sequences are
abstracted behind the success flag. -/
structure TrialData where
  successful_trial : Bool
deriving DecidableEq

/-- A `.data` file of the recording: its trial-number token and decoded
payload. -/
structure DataFile where
  trial : ℕ
  data : TrialData
deriving DecidableEq

/-- A row of the `TaskState` lookup table. -/
structure TaskStateRow where
  task_state_id : ℕ
  task_state_name : String
deriving DecidableEq

/-- A row of `Behavior.Condition` (its whole row is its primary key). -/
structure CondRow where
  recording : ℕ
  condition_id : ℕ
deriving DecidableEq

/-- A row of `Behavior.Trial`; its primary key is
`(recording, trial_number)`. -/
structure TrialRow where
  recording : ℕ
  trial_number : ℕ
  condition_id : ℕ
  save_tag : Value
  data : TrialData
deriving DecidableEq

/-- Insert `Behavior.Condition.insert1(cond_key, skip_duplicates=True)`: a row
whose primary key already exists is skipped silently. -/
def insertCondSkipDup (rows : List CondRow) (r : CondRow) : List CondRow :=
  if r ∈ rows then rows else rows ++ [r]

/-- Insert `Behavior.Trial.insert1(trial_key)` (no `skip_duplicates`): `none`
models the duplicate-key error raised when a row with the same
`(recording, trial_number)` already exists. -/
def insertTrialRow (rows : List TrialRow) (r : TrialRow) : Option (List TrialRow) :=
  if rows.any fun t => t.recording == r.recording && t.trial_number == r.trial_number then
    none
  else
    some (rows ++ [r])

/-- Insert `Behavior.insert1(key)`: a duplicate primary key raises. -/
def insertRoot (roots : List ℕ) (k : ℕ) : Option (List ℕ) :=
  if k ∈ roots then none else some (roots ++ [k])

/-- Insert `TaskState.insert(summary, skip_duplicates=True)`: rows whose
primary key (`task_state_id`) already exists are skipped. -/
def insertTaskStates (ts : List TaskStateRow) (rows : List TaskStateRow) : List TaskStateRow :=
  rows.foldl
    (fun acc r => if acc.any fun t => t.task_state_id == r.task_state_id then acc else acc ++ [r])
    ts

/-- Fetch `(TaskState() & 'task_state_name="Success"').fetch1('task_state_id')`:
succeeds only when exactly one row is named Success. -/
def fetchSuccessState (ts : List TaskStateRow) : Option ℕ :=
  match ts.filter fun t => t.task_state_name == "Success" with
  | [r] => some r.task_state_id
  | _ => none

/-- Test `f_param.replace('params','data') in data_files`: a data file with the
same trial-number token exists. -/
def hasDataFile (dfs : List DataFile) (p : ParamFile) : Bool :=
  dfs.any fun d => d.trial == p.trial

/-- The condition-catalog pass of `Behavior.make` (lines 270-330): for
each parameter file, skip it (reporting the trial) when its data file is
missing, otherwise parse it and insert its condition when no exact match
exists.  `none` models an uncaught exception (the loop has no handler):
the parse failure aborts the whole batch.  Returns the updated registry
and the reported missing-counterpart trial numbers. -/
def pass1 (db : DB) (pfs : List ParamFile) (dfs : List DataFile) : Option (DB × List ℕ) :=
  match pfs with
  | [] => some (db, [])
  | p :: rest =>
      if hasDataFile dfs p then
        match parseparams p.params with
        | none => none
        | some b =>
            pass1 (resolveOrCreate db b).2 rest dfs
      else
        match pass1 db rest dfs with
        | none => none
        | some (db', rep) => some (db', p.trial :: rep)

/-- The trial-binding pass of `Behavior.make` (lines 336-364): for each
data file, find its parameter file (report and skip the trial when there
is none), parse it, fetch the unique matching condition, ensure the
`Behavior.Condition` row, and insert the `Behavior.Trial` row.  `none`
models an uncaught exception (parse failure, ambiguous or missing
`fetch1`, missing `saveTag`, duplicate trial number). -/
def pass2 (db : DB) (key : ℕ) (pfs : List ParamFile) (dfs : List DataFile)
    (conds : List CondRow) (trials : List TrialRow) :
    Option (List CondRow × List TrialRow × List ℕ) :=
  match dfs with
  | [] => some (conds, trials, [])
  | d :: rest =>
      match pfs.find? fun p => p.trial == d.trial with
      | none =>
          match pass2 db key pfs rest conds trials with
          | none => none
          | some (cs, ts, rep) => some (cs, ts, d.trial :: rep)
      | some p =>
          match parseparams p.params with
          | none => none
          | some b =>
              match fetchCondId db b with
              | none => none
              | some cid =>
                  let conds' := insertCondSkipDup conds ⟨key, cid⟩
                  match getVal p.params "saveTag" with
                  | none => none
                  | some tag =>
                      match insertTrialRow trials ⟨key, d.trial, cid, tag, d.data⟩ with
                      | none => none
                      | some trials' => pass2 db key pfs rest conds' trials'

/-- The external context of one `Behavior.make` call: the task
controller hardware of the recording's session, the decoded summary file
(`speedgoat.readtaskstates`), and the recording's parameter and data
files. -/
structure MakeEnv where
  controller : String
  summary : List TaskStateRow
  paramFiles : List ParamFile
  dataFiles : List DataFile
deriving DecidableEq

/-- The persistent store touched by `Behavior.make`: the `Behavior`
roots, the `TaskState` lookup, the `ConditionParams` registry, and the
`Behavior.Condition` / `Behavior.Trial` part tables. -/
structure Store where
  roots : List ℕ
  taskStates : List TaskStateRow
  db : DB
  behConds : List CondRow
  trials : List TrialRow
deriving DecidableEq

/-- Embedding of `Behavior.make(self, key)`: insert the `Behavior` root, and when the
task controller is Speedgoat, ingest task states, run the
condition-catalog pass and then the trial-binding pass.  `none` models an
uncaught exception; the second component collects the printed
missing-counterpart reports. -/
def make (env : MakeEnv) (key : ℕ) (st : Store) : Option (Store × List ℕ) :=
  match insertRoot st.roots key with
  | none => none
  | some roots =>
      if env.controller == "Speedgoat" then
        let taskStates := insertTaskStates st.taskStates env.summary
        match pass1 st.db env.paramFiles env.dataFiles with
        | none => none
        | some (db, rep1) =>
            match fetchSuccessState taskStates with
            | none => none
            | some _ =>
                match pass2 db key env.paramFiles env.dataFiles st.behConds st.trials with
                | none => none
                | some (conds, trials, rep2) =>
                    some (⟨roots, taskStates, db, conds, trials⟩, rep1 ++ rep2)
      else
        some ({ st with roots := roots }, [])

/-! ## Lemmas about the id allocator -/

lemma le_foldr_max {x : ℕ} {ids : List ℕ} (hx : x ∈ ids) : x ≤ ids.foldr max 0 := by
  induction ids with
  | nil => cases hx
  | cons a l ih =>
      rw [List.foldr_cons]
      rcases List.mem_cons.mp hx with h | h
      · exact h ▸ le_max_left _ _
      · exact le_trans (ih h) (le_max_right _ _)

lemma allocId_spec (ids : List ℕ) :
    allocId ids ∉ ids ∧ ∀ j, j < allocId ids → j ∈ ids := by
  by_cases hids : ids.isEmpty
  · rw [allocId, if_pos hids]
    rw [List.isEmpty_iff] at hids
    subst hids
    exact ⟨(fun h => by cases h), fun j hj => by omega⟩
  · rw [allocId, if_neg hids]
    set M := ids.foldr max 0 with hM
    set L := (List.range (2 + M)).filter (fun i => !(decide (i ∈ ids))) with hL
    have hmemL : ∀ i, i ∈ L ↔ i < 2 + M ∧ i ∉ ids := by
      intro i
      rw [hL, List.mem_filter, List.mem_range]
      simp
    have hMmem : (M + 1) ∈ L := by
      rw [hmemL]
      refine ⟨(by omega), fun h => ?_⟩
      have := le_foldr_max h
      omega
    obtain ⟨m, t, hLcons⟩ : ∃ m t, L = m :: t := by
      cases hLl : L with
      | nil => rw [hLl] at hMmem; cases hMmem
      | cons m t => exact ⟨m, t, rfl⟩
    have hmL : m ∈ L := by rw [hLcons]; exact List.mem_cons_self _ _
    obtain ⟨hmlt, hmnot⟩ := (hmemL m).mp hmL
    have hsort : L.Pairwise (· < ·) :=
      List.Pairwise.sublist (List.filter_sublist _) (List.pairwise_lt_range _)
    rw [hLcons]
    simp only [List.headD_cons]
    refine ⟨hmnot, fun j hj => ?_⟩
    by_contra hjnot
    have hjL : j ∈ L := (hmemL j).mpr ⟨by omega, hjnot⟩
    rw [hLcons] at hjL hsort
    rcases List.mem_cons.mp hjL with h | h
    · omega
    · have := (List.pairwise_cons.mp hsort).1 j h
      omega

/-- C3: whenever a new condition_id, force_id, stim_id, or target_id is
allocated (all four sites of `Behavior.make` allocate with `allocId` over
the id column of their own table), the allocated id is absent from the
currently used id set, every smaller id is present (so it is the smallest
unused non-negative integer), and it is 0 when the id space is empty —
for every possible current id set. -/
theorem allocId_smallest_unused (ids : List ℕ) :
    allocId ids ∉ ids ∧ (∀ j, j ∉ ids → allocId ids ≤ j) ∧
      (ids = [] → allocId ids = 0) := by
  obtain ⟨h1, h2⟩ := allocId_spec ids
  refine ⟨h1, fun j hj => ?_, fun h => by rw [h, allocId]; rfl⟩
  by_contra hlt
  exact hj (h2 j (by omega))

/-- Witness for C3 at the concrete id set `[0, 1, 3]`: the allocator
returns 2, the smallest unused id. -/
theorem allocId_smallest_unused_witness :
    allocId [0, 1, 3] = 2 ∧
      (allocId [0, 1, 3] ∉ [0, 1, 3] ∧
        (∀ j, j ∉ [0, 1, 3] → allocId [0, 1, 3] ≤ j) ∧
        ([0, 1, 3] = ([] : List ℕ) → allocId [0, 1, 3] = 0)) :=
  ⟨by decide, allocId_smallest_unused [0, 1, 3]⟩

/-! ## The condition match, at the level of propositions -/

lemma condMatchesB_iff (db : DB) (b : Bundle) (c : ℕ) :
    condMatchesB db b c = true ↔
      (∃ r ∈ db.force, c = r.condition_id ∧ r.attr = b.force) ∧
      (match b.stim with
       | some s => ∃ r ∈ db.stim, c = r.condition_id ∧ r.attr = s
       | none => ¬ ∃ r ∈ db.stim, c = r.condition_id) ∧
      (∃ r ∈ db.target, (c = r.condition_id ∧ r.attr = b.target) ∧
        (match b.targetType with
         | TargetType.static =>
             ∃ v ∈ db.static, c = v.condition_id ∧ v.target_id = r.target_id
         | TargetType.ramp a =>
             ∃ v ∈ db.ramp, (c = v.condition_id ∧ v.target_id = r.target_id) ∧
               v.target_amplitude = a
         | TargetType.sine a f =>
             ∃ v ∈ db.sine, ((c = v.condition_id ∧ v.target_id = r.target_id) ∧
               v.target_amplitude = a) ∧ v.target_frequency = f
         | TargetType.chirp a f0 f1 =>
             ∃ v ∈ db.chirp, (((c = v.condition_id ∧ v.target_id = r.target_id) ∧
               v.target_amplitude = a) ∧ v.target_frequency_init = f0) ∧
               v.target_frequency_final = f1)) := by
  rw [condMatchesB]
  cases b.stim <;> cases b.targetType <;>
    simp [List.any_eq_true, Bool.and_eq_true, and_assoc]

/-- C4: condition resolution never matches a Stim-less bundle to a
condition that has any Stim row, and never matches a Stim-carrying bundle
to a condition without one, whatever the Force and Target attributes:
membership of `c` in the match result forces Stim-presence agreement. -/
theorem stim_presence_discriminates (db : DB) (b : Bundle) (c : ℕ)
    (hc : c ∈ matchingConds db b) :
    (b.stim = none → ∀ r ∈ db.stim, r.condition_id ≠ c) ∧
      (∀ s, b.stim = some s → ∃ r ∈ db.stim, r.condition_id = c) := by
  have hm : condMatchesB db b c = true := (List.mem_filter.mp hc).2
  rw [condMatchesB_iff] at hm
  obtain ⟨-, hstim, -⟩ := hm
  constructor
  · intro hnone r hr hrc
    rw [hnone] at hstim
    exact hstim ⟨r, hr, hrc.symm⟩
  · intro s hsome
    rw [hsome] at hstim
    obtain ⟨r, hr, hrc, -⟩ := hstim
    exact ⟨r, hr, hrc.symm⟩

/-! ## The worked example of the spec (section 8) -/

/-- Force attributes of the example bundle: max force 5, baseline offset
0.1, not inverted. -/
def exForce : ForceAttr :=
  ⟨Value.num 5, Value.num (mkRat 1 10), false⟩

/-- Target attributes of the example bundle: duration 2.0, offset 0.0,
pad 0.1. -/
def exTarget : TargetAttr :=
  ⟨Value.num 2, 0, Value.num (mkRat 1 10)⟩

/-- The example bundle: no Stim, Ramp amplitude 0.5. -/
def exBundle1 : Bundle :=
  ⟨exForce, none, exTarget, TargetType.ramp (mkRat 1 2)⟩

/-- The example's third bundle, differing only in Ramp amplitude 0.6. -/
def exBundle3 : Bundle :=
  ⟨exForce, none, exTarget, TargetType.ramp (mkRat 3 5)⟩

/-- The registry after resolving the example bundle on an empty registry. -/
def exDB1 : DB :=
  (resolveOrCreate DB.empty exBundle1).2

/-- Witness for C4: the example registry's condition 0 was created from
the Stim-less example bundle, and the match respects Stim presence. -/
theorem stim_presence_discriminates_witness :
    (exBundle1.stim = none → ∀ r ∈ exDB1.stim, r.condition_id ≠ 0) ∧
      (∀ s, exBundle1.stim = some s → ∃ r ∈ exDB1.stim, r.condition_id = 0) :=
  stim_presence_discriminates exDB1 exBundle1 0 (by decide)

/-! ## Idempotence of condition resolution -/

lemma createCondition_fst (db : DB) (b : Bundle) :
    (createCondition db b).1 = allocId db.conditions := by
  obtain ⟨bf, bs, bt, btt⟩ := b
  cases bs <;> cases btt <;> simp [createCondition]

lemma createCondition_conditions (db : DB) (b : Bundle) :
    (createCondition db b).2.conditions = db.conditions ++ [allocId db.conditions] := by
  obtain ⟨bf, bs, bt, btt⟩ := b
  cases bs <;> cases btt <;> simp [createCondition]

lemma createCondition_matches (db : DB) (b : Bundle)
    (hwf : ∀ r ∈ db.stim, r.condition_id ∈ db.conditions) :
    condMatchesB (createCondition db b).2 b (createCondition db b).1 = true := by
  have hfresh : allocId db.conditions ∉ db.conditions := (allocId_spec _).1
  have hstimf : (db.stim.any fun r => allocId db.conditions == r.condition_id) = false := by
    rw [List.any_eq_false]
    intro r hr
    simp only [beq_eq_false_iff_ne, ne_eq, Bool.not_eq_true]
    intro heq
    exact hfresh (heq ▸ hwf r hr)
  obtain ⟨bf, bs, bt, btt⟩ := b
  cases bs <;> cases btt <;>
    simp [createCondition, condMatchesB, List.any_append, hstimf]

lemma createCondition_other (db : DB) (b : Bundle) (c' : ℕ)
    (hne : c' ≠ allocId db.conditions) :
    condMatchesB (createCondition db b).2 b c' = condMatchesB db b c' := by
  have hbeq : (c' == allocId db.conditions) = false := beq_eq_false_iff_ne.mpr hne
  obtain ⟨bf, bs, bt, btt⟩ := b
  cases bs <;> cases btt <;>
    simp [createCondition, condMatchesB, List.any_append, hbeq]

lemma matchingConds_after_create (db : DB) (b : Bundle)
    (hwf : ∀ r ∈ db.stim, r.condition_id ∈ db.conditions)
    (hempty : matchingConds db b = []) :
    matchingConds (createCondition db b).2 b = [allocId db.conditions] := by
  have hfilter : ∀ c' ∈ db.conditions, condMatchesB db b c' = false := by
    intro c' hc'
    by_contra h
    have hmem : c' ∈ matchingConds db b := by
      refine List.mem_filter.mpr ⟨hc', ?_⟩
      revert h
      cases condMatchesB db b c' <;> simp
    rw [hempty] at hmem
    cases hmem
  rw [matchingConds, createCondition_conditions, List.filter_append]
  have h1 : db.conditions.filter (condMatchesB (createCondition db b).2 b) = [] := by
    rw [List.filter_eq_nil_iff]
    intro c' hc'
    have hne : c' ≠ allocId db.conditions :=
      fun h => (allocId_spec db.conditions).1 (h ▸ hc')
    rw [createCondition_other db b c' hne, hfilter c' hc']
    simp
  have h2 : condMatchesB (createCondition db b).2 b (allocId db.conditions) = true := by
    have := createCondition_matches db b hwf
    rwa [createCondition_fst] at this
  rw [h1, List.filter_cons, h2]
  simp

/-- C1: resolving an attribute bundle twice is idempotent — the second
call to `resolveOrCreate` with an identical Force/Stim/Target/variant
bundle returns the same `condition_id` and the unchanged registry, so it
inserts no new ConditionParams, Force, Stim, Target, or variant rows.
The hypothesis is referential consistency of Stim rows (every Stim row
belongs to a registered condition), which every reachable registry
satisfies. -/
theorem resolveOrCreate_idempotent (db : DB) (b : Bundle)
    (hwf : ∀ r ∈ db.stim, r.condition_id ∈ db.conditions) :
    resolveOrCreate (resolveOrCreate db b).2 b = resolveOrCreate db b := by
  rcases hm : matchingConds db b with _ | ⟨c, rest⟩
  · have h1 : resolveOrCreate db b = createCondition db b := by
      rw [resolveOrCreate, hm]
    rw [h1, resolveOrCreate, matchingConds_after_create db b hwf hm,
      ← createCondition_fst db b]
  · have h1 : resolveOrCreate db b = (c, db) := by
      rw [resolveOrCreate, hm]
    rw [h1]
    simpa using h1

/-- Witness for C1: resolving the example bundle twice on the empty
registry returns condition 0 the second time with no new rows. -/
theorem resolveOrCreate_idempotent_witness :
    resolveOrCreate (resolveOrCreate DB.empty exBundle1).2 exBundle1 =
      resolveOrCreate DB.empty exBundle1 :=
  resolveOrCreate_idempotent DB.empty exBundle1 (by decide)

/-! ## The worked id-assignment example -/

/-- Counterexample for C2: the third bundle (amplitude 0.6) does get the
new `condition_id` 1, but its Target sub-group row does not carry the
claimed fresh `target_id` 1 — the Target part table is matched on
duration/offset/pad only, which the first condition already carries, so
`target_id` 0 is reused and no row with `target_id` 1 exists anywhere. -/
theorem example_third_bundle_counterexample :
    (resolveOrCreate exDB1 exBundle3).1 = 1 ∧
      (∃ r ∈ (resolveOrCreate exDB1 exBundle3).2.target,
        r.condition_id = 1 ∧ r.target_id = 0) ∧
      ¬ ∃ r ∈ (resolveOrCreate exDB1 exBundle3).2.target, r.target_id = 1 := by
  decide

/-- C2 as amended: on an empty registry the example bundle yields
`condition_id` 0, `force_id` 0, `target_id` 0 and Ramp amplitude 0.5; an
attribute-identical second bundle yields the same `condition_id` 0 with
the registry unchanged; the third bundle (amplitude 0.6) yields
`condition_id` 1 and reuses both `force_id` 0 and `target_id` 0 (its Ramp
row carries amplitude 0.6 under the reused `target_id`). -/
theorem example_sequence_amended :
    (resolveOrCreate DB.empty exBundle1).1 = 0 ∧
      ((resolveOrCreate DB.empty exBundle1).2.force.map
        fun r => (r.condition_id, r.force_id)) = [(0, 0)] ∧
      ((resolveOrCreate DB.empty exBundle1).2.target.map
        fun r => (r.condition_id, r.target_id)) = [(0, 0)] ∧
      ((resolveOrCreate DB.empty exBundle1).2.ramp.map
        fun r => (r.condition_id, r.target_id, r.target_amplitude)) =
        [(0, 0, mkRat 1 2)] ∧
      (resolveOrCreate DB.empty exBundle1).2.stim = [] ∧
      resolveOrCreate exDB1 exBundle1 = (0, exDB1) ∧
      (resolveOrCreate exDB1 exBundle3).1 = 1 ∧
      ((resolveOrCreate exDB1 exBundle3).2.force.map
        fun r => (r.condition_id, r.force_id)) = [(0, 0), (1, 0)] ∧
      ((resolveOrCreate exDB1 exBundle3).2.target.map
        fun r => (r.condition_id, r.target_id)) = [(0, 0), (1, 0)] ∧
      ((resolveOrCreate exDB1 exBundle3).2.ramp.map
        fun r => (r.condition_id, r.target_id, r.target_amplitude)) =
        [(0, 0, mkRat 1 2), (1, 0, mkRat 3 5)] := by
  decide

/-! ## Duplicate-insert behaviour during trial ingestion -/

/-- C5: inserting a `Behavior.Condition` row whose (recording, condition)
pair already exists leaves the table unchanged without error
(`skip_duplicates=True`), while inserting a `Behavior.Trial` row whose
trial number already exists for the recording raises (`none`) rather than
overwriting. -/
theorem duplicate_insert_behavior :
    (∀ (rows : List CondRow) (r : CondRow), r ∈ rows → insertCondSkipDup rows r = rows) ∧
      (∀ (rows : List TrialRow) (r t : TrialRow), t ∈ rows →
        t.recording = r.recording → t.trial_number = r.trial_number →
        insertTrialRow rows r = none) := by
  constructor
  · intro rows r h
    rw [insertCondSkipDup, if_pos h]
  · intro rows r t ht h1 h2
    have hany : (rows.any fun s =>
        s.recording == r.recording && s.trial_number == r.trial_number) = true := by
      rw [List.any_eq_true]
      exact ⟨t, ht, by simp [h1, h2]⟩
    rw [insertTrialRow, hany]
    rfl

/-- Witness for C5: re-inserting the (0, 0) condition row is a no-op, and
inserting a second trial 7 of recording 0 (even with different condition
and payload) errors. -/
theorem duplicate_insert_behavior_witness :
    insertCondSkipDup [⟨0, 0⟩] ⟨0, 0⟩ = [⟨0, 0⟩] ∧
      insertTrialRow [⟨0, 7, 0, Value.num 0, ⟨true⟩⟩]
        ⟨0, 7, 1, Value.num 1, ⟨false⟩⟩ = none :=
  ⟨duplicate_insert_behavior.1 [⟨0, 0⟩] ⟨0, 0⟩ (by decide),
   duplicate_insert_behavior.2 [⟨0, 7, 0, Value.num 0, ⟨true⟩⟩]
     ⟨0, 7, 1, Value.num 1, ⟨false⟩⟩ ⟨0, 7, 0, Value.num 0, ⟨true⟩⟩
     (by decide) rfl rfl⟩

/-! ## Attribute extraction -/

lemma parseparams_parts {p : RawParams} {b : Bundle} (h : parseparams p = some b) :
    parseForce p = some b.force ∧
      (if stimFlagOn p then (structuredStim (stimDict p)).map some else some none) =
        some b.stim ∧
      parseTarget p = some b.target ∧ parseTargetType p = some b.targetType := by
  cases hflag : stimFlagOn p
  · simp only [parseparams, hflag, Bool.false_eq_true, if_false, bind, Option.some_bind,
      Option.bind_eq_some, Option.pure_def, Option.some.injEq] at h
    obtain ⟨f, hf, t, ht, tt, htt, hb⟩ := h
    subst hb
    simp [hf, ht, htt]
  · simp only [parseparams, hflag, if_true, bind, Option.bind_eq_some,
      Option.pure_def, Option.some.injEq] at h
    obtain ⟨f, hf, s, hs, t, ht, tt, htt, hb⟩ := h
    subst hb
    simp [hf, hs, ht, htt]

lemma parseForce_parts {p : RawParams} {f : ForceAttr} (h : parseForce p = some f) :
    ∃ m o pol, getVal p "frcMax" = some m ∧ getVal p "frcOff" = some o ∧
      getVal p "frcPol" = some pol ∧ f = ⟨m, o, pol == Value.num (-1)⟩ := by
  simp only [parseForce, bind, Option.bind_eq_some, Option.pure_def,
    Option.some.injEq] at h
  obtain ⟨m, hm, o, ho, pol, hpol, hf⟩ := h
  exact ⟨m, o, pol, hm, ho, hpol, hf.symm⟩

/-- The parameter record of the spec's example bundle (`frcPol` = 1). -/
def exParams1 : RawParams :=
  [("frcMax", Value.num 5), ("frcOff", Value.num (mkRat 1 10)),
   ("frcPol", Value.num 1), ("duration", Value.num 2),
   ("offset", Value.arr [0]), ("padDur", Value.num (mkRat 1 10)),
   ("type", Value.str "RMP"), ("amplitude", Value.arr [mkRat 1 2]),
   ("frequency", Value.arr [1, 2]), ("saveTag", Value.num 0)]

/-- The same record with polarity -2: negative, but not the -1 the code
compares against. -/
def exParamsPolNeg2 : RawParams :=
  [("frcMax", Value.num 5), ("frcOff", Value.num (mkRat 1 10)),
   ("frcPol", Value.num (-2)), ("duration", Value.num 2),
   ("offset", Value.arr [0]), ("padDur", Value.num (mkRat 1 10)),
   ("type", Value.str "RMP"), ("amplitude", Value.arr [mkRat 1 2]),
   ("frequency", Value.arr [1, 2]), ("saveTag", Value.num 0)]

/-- Counterexample for C7: a record whose polarity field is -2 (negative)
parses successfully with `force_inverted = false`, because the code tests
`params['frcPol'] == -1`, not negativity. -/
theorem force_inverted_counterexample :
    getVal exParamsPolNeg2 "frcPol" = some (Value.num (-2)) ∧ (-2 : ℚ) < 0 ∧
      (parseparams exParamsPolNeg2).map (fun b => b.force.force_inverted) =
        some false := by
  decide

/-- C7 as amended: for every parameter record that parses, the max-force
and baseline-offset attributes are extracted verbatim, and
`force_inverted` is true iff the polarity field equals -1 (not: is
negative). -/
theorem force_attr_amended (p : RawParams) (b : Bundle)
    (h : parseparams p = some b) :
    (∃ v, getVal p "frcMax" = some v ∧ b.force.force_max = v) ∧
      (∃ v, getVal p "frcOff" = some v ∧ b.force.force_offset = v) ∧
      (∃ v, getVal p "frcPol" = some v ∧
        (b.force.force_inverted = true ↔ v = Value.num (-1))) := by
  obtain ⟨m, o, pol, hm, ho, hpol, hf⟩ := parseForce_parts (parseparams_parts h).1
  rw [hf]
  exact ⟨⟨m, hm, rfl⟩, ⟨o, ho, rfl⟩, ⟨pol, hpol, by simp⟩⟩

/-- Witness for C7 (amended) at the example record: polarity 1, parsed
with `force_inverted = false`, max force and offset extracted. -/
theorem force_attr_amended_witness :
    (∃ v, getVal exParams1 "frcMax" = some v ∧ exBundle1.force.force_max = v) ∧
      (∃ v, getVal exParams1 "frcOff" = some v ∧ exBundle1.force.force_offset = v) ∧
      (∃ v, getVal exParams1 "frcPol" = some v ∧
        (exBundle1.force.force_inverted = true ↔ v = Value.num (-1))) :=
  force_attr_amended exParams1 exBundle1 (by decide)

/-- A parameter record with the stimulation flag at its "on" sentinel and
the full set of `stim<Name>` keys. -/
def exStimParams : RawParams :=
  [("frcMax", Value.num 5), ("frcOff", Value.num (mkRat 1 10)),
   ("frcPol", Value.num 1), ("duration", Value.num 2),
   ("offset", Value.arr [0]), ("padDur", Value.num (mkRat 1 10)),
   ("type", Value.str "STA"), ("amplitude", Value.arr [mkRat 1 2]),
   ("frequency", Value.arr [1, 2]), ("saveTag", Value.num 0),
   ("stim", Value.num 1), ("stimDelay", Value.num 3),
   ("stimCurrent", Value.num 50), ("stimElectrode", Value.num 7),
   ("stimPolarity", Value.num 1), ("stimPulses", Value.num 10),
   ("stimWidth1", Value.num 200), ("stimWidth2", Value.num 200),
   ("stimInterphase", Value.num 53), ("stimFrequency", Value.num 100)]

/-- C8: with the stimulation flag at the "on" sentinel, the extracted
Stim dictionary contains exactly the fields `stim_<name>` for the record
keys matching the `stim<Name>` pattern other than `stimDelay`, with
`<name>` lowercased and the original value preserved; with the flag
unset, the parsed bundle marks the Stim group absent. -/
theorem stim_extraction (p : RawParams) :
    (stimFlagOn p = true →
      ∀ n v, (n, v) ∈ stimDict p ↔
        ∃ k, (k, v) ∈ p ∧ k ≠ "stimDelay" ∧
          ∃ g, stimKey k = some g ∧ n = "stim_" ++ lowerStr g) ∧
      (stimFlagOn p = false → ∀ b, parseparams p = some b → b.stim = none) := by
  constructor
  · intro _ n v
    rw [stimDict, List.mem_filterMap]
    constructor
    · rintro ⟨⟨k, w⟩, hkv, hf⟩
      dsimp only at hf
      cases hg : stimKey k with
      | none => rw [hg] at hf; cases hf
      | some g =>
          rw [hg] at hf
          dsimp only at hf
          by_cases hd : k = "stimDelay"
          · rw [if_pos hd] at hf; cases hf
          · rw [if_neg hd] at hf
            simp only [Option.some.injEq, Prod.mk.injEq] at hf
            obtain ⟨h1, h2⟩ := hf
            subst h2
            exact ⟨k, hkv, hd, g, hg, h1.symm⟩
    · rintro ⟨k, hkv, hd, g, hg, hn⟩
      refine ⟨(k, v), hkv, ?_⟩
      dsimp only
      rw [hg]
      dsimp only
      rw [if_neg hd, hn]
  · intro hflag b hb
    have hs := (parseparams_parts hb).2.1
    rw [hflag] at hs
    simpa [eq_comm] using hs

/-- Witness for C8: `stimCurrent` is extracted as `stim_current` with its
value preserved, and the Stim-less example record parses with the Stim
group marked absent. -/
theorem stim_extraction_witness :
    ("stim_current", Value.num 50) ∈ stimDict exStimParams ∧
      exBundle1.stim = none :=
  ⟨((stim_extraction exStimParams).1 (by decide) "stim_current" (Value.num 50)).mpr
      ⟨"stimCurrent", by decide, by decide, "Current", by decide, by decide⟩,
   (stim_extraction exParams1).2 (by decide) exBundle1 (by decide)⟩

/-! ## Frame of a non-Speedgoat recording -/

/-- C10: for a recording whose task controller hardware is not
Speedgoat, `make` inserts exactly the `Behavior` root record and nothing
else: `TaskState`, the `ConditionParams` registry, `Behavior.Condition`
and `Behavior.Trial` are untouched and nothing is reported. -/
theorem non_speedgoat_frame (env : MakeEnv) (key : ℕ) (st : Store)
    (hc : env.controller ≠ "Speedgoat") (hk : key ∉ st.roots) :
    make env key st = some ({ st with roots := st.roots ++ [key] }, []) := by
  have hbeq : (env.controller == "Speedgoat") = false := beq_eq_false_iff_ne.mpr hc
  simp [make, insertRoot, hbeq, hk]

/-- A populated store, to exhibit that nothing but the roots change. -/
def exStore : Store :=
  ⟨[5], [⟨3, "Success"⟩], exDB1, [⟨5, 0⟩], []⟩

/-- An environment whose task controller is not Speedgoat, with files and
summary rows present (they must be ignored). -/
def exEnvNonSG : MakeEnv :=
  ⟨"Blackrock", [⟨0, "Intertrial"⟩], [⟨1, exParams1⟩], [⟨1, ⟨true⟩⟩]⟩

/-- Witness for C10: ingesting recording 0 under a Blackrock controller
adds only the root 0 to the populated store. -/
theorem non_speedgoat_frame_witness :
    make exEnvNonSG 0 exStore =
      some ({ exStore with roots := exStore.roots ++ [0] }, []) :=
  non_speedgoat_frame exEnvNonSG 0 exStore (by decide) (by decide)

/-! ## Unknown profile types abort the batch -/

lemma parseTargetType_none {p : RawParams} {ty : Value}
    (h : getVal p "type" = some ty)
    (h1 : ty ≠ Value.str "STA") (h2 : ty ≠ Value.str "RMP")
    (h3 : ty ≠ Value.str "SIN") (h4 : ty ≠ Value.str "CHP") :
    parseTargetType p = none := by
  have b1 : (ty == Value.str "STA") = false := beq_eq_false_iff_ne.mpr h1
  have b2 : (ty == Value.str "RMP") = false := beq_eq_false_iff_ne.mpr h2
  have b3 : (ty == Value.str "SIN") = false := beq_eq_false_iff_ne.mpr h3
  have b4 : (ty == Value.str "CHP") = false := beq_eq_false_iff_ne.mpr h4
  simp [parseTargetType, h, b1, b2, b3, b4, h1, h2, h3, h4]

lemma parseparams_eq_none {p : RawParams} (htt : parseTargetType p = none) :
    parseparams p = none := by
  cases hp : parseparams p with
  | none => rfl
  | some b =>
      have h := (parseparams_parts hp).2.2.2
      rw [htt] at h
      cases h

/-- C6 as amended: a parameter file whose profile-type tag is outside the
four known variants (with its data file present, so that it is actually
parsed) aborts the whole condition-catalog pass — the `UnboundLocalError`
propagates out of the unguarded loop, so the remaining files of the batch
are not ingested. -/
theorem unknown_profile_aborts (db : DB) (pfs : List ParamFile)
    (dfs : List DataFile) (f : ParamFile) (hf : f ∈ pfs)
    (hdata : hasDataFile dfs f = true)
    (ht : ∃ ty, getVal f.params "type" = some ty ∧ ty ≠ Value.str "STA" ∧
      ty ≠ Value.str "RMP" ∧ ty ≠ Value.str "SIN" ∧ ty ≠ Value.str "CHP") :
    pass1 db pfs dfs = none := by
  obtain ⟨ty, hty, h1, h2, h3, h4⟩ := ht
  have hnone : parseparams f.params = none :=
    parseparams_eq_none (parseTargetType_none hty h1 h2 h3 h4)
  induction pfs generalizing db with
  | nil => cases hf
  | cons q rest ih =>
      rw [pass1]
      rcases List.mem_cons.mp hf with rfl | hmem
      · simp [hdata, hnone]
      · cases hqd : hasDataFile dfs q
        · simp only [hqd, Bool.false_eq_true, if_false]
          rw [ih db hmem]
        · simp only [hqd, if_true]
          cases hpq : parseparams q.params
          · rfl
          · exact ih _ hmem

/-- The example record with the unrecognised profile tag XYZ. -/
def exParamsBad : RawParams :=
  [("frcMax", Value.num 5), ("frcOff", Value.num (mkRat 1 10)),
   ("frcPol", Value.num 1), ("duration", Value.num 2),
   ("offset", Value.arr [0]), ("padDur", Value.num (mkRat 1 10)),
   ("type", Value.str "XYZ"), ("amplitude", Value.arr [mkRat 1 2]),
   ("frequency", Value.arr [1, 2]), ("saveTag", Value.num 0)]

/-- The example record with Ramp amplitude 0.6. -/
def exParams3 : RawParams :=
  [("frcMax", Value.num 5), ("frcOff", Value.num (mkRat 1 10)),
   ("frcPol", Value.num 1), ("duration", Value.num 2),
   ("offset", Value.arr [0]), ("padDur", Value.num (mkRat 1 10)),
   ("type", Value.str "RMP"), ("amplitude", Value.arr [mkRat 3 5]),
   ("frequency", Value.arr [1, 2]), ("saveTag", Value.num 0)]

/-- Parameter file of trial 1, well-formed. -/
def exGoodFile1 : ParamFile :=
  ⟨1, exParams1⟩

/-- Parameter file of trial 8, profile tag XYZ. -/
def exBadFile : ParamFile :=
  ⟨8, exParamsBad⟩

/-- Parameter file of trial 2, well-formed, a second distinct condition. -/
def exGoodFile2 : ParamFile :=
  ⟨2, exParams3⟩

/-- Data files for trials 1, 8 and 2. -/
def exDataFiles : List DataFile :=
  [⟨1, ⟨true⟩⟩, ⟨8, ⟨true⟩⟩, ⟨2, ⟨true⟩⟩]

/-- Counterexample for C6: with the XYZ-tagged file of trial 8 in the
middle of the batch, the condition-catalog pass aborts (`none`) and the
remaining file of trial 2 is not ingested, whereas the same batch without
the bad file completes and registers both conditions 0 and 1. -/
theorem unknown_profile_counterexample :
    pass1 DB.empty [exGoodFile1, exBadFile, exGoodFile2] exDataFiles = none ∧
      (pass1 DB.empty [exGoodFile1, exGoodFile2] exDataFiles).map
        (fun r => r.1.conditions) = some [0, 1] := by
  decide

/-- Witness for C6 (amended) at the concrete three-file batch. -/
theorem unknown_profile_aborts_witness :
    pass1 DB.empty [exGoodFile1, exBadFile, exGoodFile2] exDataFiles = none :=
  unknown_profile_aborts DB.empty [exGoodFile1, exBadFile, exGoodFile2]
    exDataFiles exBadFile (by decide) (by decide)
    ⟨Value.str "XYZ", by decide, by decide, by decide, by decide, by decide⟩


/-! ## Missing counterpart files are reported and skipped -/

lemma insertTrialRow_some {rows : List TrialRow} {r : TrialRow}
    {rows' : List TrialRow} (h : insertTrialRow rows r = some rows') :
    rows' = rows ++ [r] := by
  rw [insertTrialRow] at h
  cases hany : (rows.any fun t =>
      t.recording == r.recording && t.trial_number == r.trial_number) <;>
    rw [hany] at h
  · simpa using h.symm
  · cases h

lemma pass1_cons_inv {db : DB} {q : ParamFile} {rest : List ParamFile}
    {dfs : List DataFile} {res : DB × List ℕ}
    (h : pass1 db (q :: rest) dfs = some res) :
    (hasDataFile dfs q = false ∧
      ∃ db' rep, pass1 db rest dfs = some (db', rep) ∧ res = (db', q.trial :: rep)) ∨
    (hasDataFile dfs q = true ∧
      ∃ b, parseparams q.params = some b ∧
        pass1 (resolveOrCreate db b).2 rest dfs = some res) := by
  rw [pass1] at h
  cases hqd : hasDataFile dfs q <;> rw [hqd] at h
  · simp only [Bool.false_eq_true, if_false] at h
    cases hrec : pass1 db rest dfs <;> rw [hrec] at h
    · cases h
    · rename_i pr
      obtain ⟨db2, rep2⟩ := pr
      dsimp only at h
      exact Or.inl ⟨rfl, db2, rep2, rfl, (Option.some.inj h).symm⟩
  · simp only [if_true] at h
    cases hpq : parseparams q.params <;> rw [hpq] at h <;> dsimp only at h
    · cases h
    · exact Or.inr ⟨rfl, _, rfl, h⟩

lemma pass2_cons_inv {db : DB} {key : ℕ} {pfs : List ParamFile} {d0 : DataFile}
    {rest : List DataFile} {conds : List CondRow} {trials : List TrialRow}
    {res : List CondRow × List TrialRow × List ℕ}
    (h : pass2 db key pfs (d0 :: rest) conds trials = some res) :
    ((pfs.find? fun p => p.trial == d0.trial) = none ∧
      ∃ cs ts rep, pass2 db key pfs rest conds trials = some (cs, ts, rep) ∧
        res = (cs, ts, d0.trial :: rep)) ∨
    (∃ p0, (pfs.find? fun p => p.trial == d0.trial) = some p0 ∧
      ∃ b, parseparams p0.params = some b ∧
      ∃ cid, fetchCondId db b = some cid ∧
      ∃ tag, getVal p0.params "saveTag" = some tag ∧
        insertTrialRow trials ⟨key, d0.trial, cid, tag, d0.data⟩ =
          some (trials ++ [⟨key, d0.trial, cid, tag, d0.data⟩]) ∧
        pass2 db key pfs rest (insertCondSkipDup conds ⟨key, cid⟩)
          (trials ++ [⟨key, d0.trial, cid, tag, d0.data⟩]) = some res) := by
  rw [pass2] at h
  cases hfind : (pfs.find? fun p => p.trial == d0.trial) <;> rw [hfind] at h <;>
    dsimp only at h
  · cases hrec : pass2 db key pfs rest conds trials <;> rw [hrec] at h
    · cases h
    · rename_i pr
      obtain ⟨cs2, ts2, rep2⟩ := pr
      dsimp only at h
      exact Or.inl ⟨rfl, cs2, ts2, rep2, rfl, (Option.some.inj h).symm⟩
  · rename_i p0
    cases hpq : parseparams p0.params <;> rw [hpq] at h <;> dsimp only at h
    · cases h
    · rename_i b
      cases hcid : fetchCondId db b <;> rw [hcid] at h <;> dsimp only at h
      · cases h
      · rename_i cid
        cases htag : getVal p0.params "saveTag" <;> rw [htag] at h <;> dsimp only at h
        · cases h
        · rename_i tag
          cases hins : insertTrialRow trials ⟨key, d0.trial, cid, tag, d0.data⟩ <;>
            rw [hins] at h <;> dsimp only at h
          · cases h
          · rename_i trials'
            have heq := insertTrialRow_some hins
            subst heq
            exact Or.inr ⟨p0, rfl, b, hpq, cid, hcid, tag, htag, hins, h⟩

lemma pass1_reports {dfs : List DataFile} {pfs : List ParamFile} {db db' : DB}
    {rep : List ℕ} (h : pass1 db pfs dfs = some (db', rep)) :
    ∀ p ∈ pfs, hasDataFile dfs p = false → p.trial ∈ rep := by
  induction pfs generalizing db db' rep with
  | nil => intro p hp; cases hp
  | cons q rest ih =>
      intro p hp hnd
      rcases pass1_cons_inv h with ⟨hqd, db2, rep2, hrec, hres⟩ |
        ⟨hqd, b, hpq, hrec⟩
      · obtain ⟨h1, h2⟩ := Prod.mk.injEq .. ▸ hres
        subst h2
        rcases List.mem_cons.mp hp with rfl | hmem
        · exact List.mem_cons_self _ _
        · exact List.mem_cons_of_mem _ (ih hrec p hmem hnd)
      · rcases List.mem_cons.mp hp with rfl | hmem
        · rw [hnd] at hqd; cases hqd
        · exact ih hrec p hmem hnd

lemma pass2_reports {db : DB} {key : ℕ} {pfs : List ParamFile}
    {dfs : List DataFile} {conds : List CondRow} {trials : List TrialRow}
    {cs : List CondRow} {ts : List TrialRow} {rep : List ℕ}
    (h : pass2 db key pfs dfs conds trials = some (cs, ts, rep)) :
    ∀ d ∈ dfs, (pfs.find? fun p => p.trial == d.trial) = none → d.trial ∈ rep := by
  induction dfs generalizing conds trials cs ts rep with
  | nil => intro d hd; cases hd
  | cons d0 rest ih =>
      intro d hd hnf
      rcases pass2_cons_inv h with ⟨hnf0, cs2, ts2, rep2, hrec, hres⟩ |
        ⟨p0, hfind, b, hpq, cid, hcid, tag, htag, hins, hrec⟩
      · injection hres with h1 h2
        injection h2 with h2 h3
        subst h3
        rcases List.mem_cons.mp hd with rfl | hmem
        · exact List.mem_cons_self _ _
        · exact List.mem_cons_of_mem _ (ih hrec d hmem hnf)
      · rcases List.mem_cons.mp hd with rfl | hmem
        · rw [hnf] at hfind; cases hfind
        · exact ih hrec d hmem hnf

lemma pass2_trials_mono {db : DB} {key : ℕ} {pfs : List ParamFile}
    {dfs : List DataFile} {conds : List CondRow} {trials : List TrialRow}
    {cs : List CondRow} {ts : List TrialRow} {rep : List ℕ}
    (h : pass2 db key pfs dfs conds trials = some (cs, ts, rep)) :
    ∀ t ∈ trials, t ∈ ts := by
  induction dfs generalizing conds trials cs ts rep with
  | nil =>
      rw [pass2] at h
      simp only [Option.some.injEq, Prod.mk.injEq] at h
      intro t ht
      rw [← h.2.1]
      exact ht
  | cons d0 rest ih =>
      intro t ht
      rcases pass2_cons_inv h with ⟨hnf0, cs2, ts2, rep2, hrec, hres⟩ |
        ⟨p0, hfind, b, hpq, cid, hcid, tag, htag, hins, hrec⟩
      · injection hres with h1 h2
        injection h2 with h2 h3
        subst h2
        exact ih hrec t ht
      · exact ih hrec t (List.mem_append_left _ ht)

lemma pass2_trials_from {db : DB} {key : ℕ} {pfs : List ParamFile}
    {dfs : List DataFile} {conds : List CondRow} {trials : List TrialRow}
    {cs : List CondRow} {ts : List TrialRow} {rep : List ℕ}
    (h : pass2 db key pfs dfs conds trials = some (cs, ts, rep)) :
    ∀ t ∈ ts, t ∈ trials ∨
      ∃ d ∈ dfs, t.trial_number = d.trial ∧ ∃ p ∈ pfs, p.trial = d.trial := by
  induction dfs generalizing conds trials cs ts rep with
  | nil =>
      rw [pass2] at h
      simp only [Option.some.injEq, Prod.mk.injEq] at h
      intro t ht
      rw [← h.2.1] at ht
      exact Or.inl ht
  | cons d0 rest ih =>
      intro t ht
      rcases pass2_cons_inv h with ⟨hnf0, cs2, ts2, rep2, hrec, hres⟩ |
        ⟨p0, hfind, b, hpq, cid, hcid, tag, htag, hins, hrec⟩
      · injection hres with h1 h2
        injection h2 with h2 h3
        subst h2
        rcases ih hrec t ht with hl | ⟨d, hd, h1, p, hp, h2⟩
        · exact Or.inl hl
        · exact Or.inr ⟨d, List.mem_cons_of_mem _ hd, h1, p, hp, h2⟩
      · rcases ih hrec t ht with hl | ⟨d, hd, h1, p, hp, h2⟩
        · rcases List.mem_append.mp hl with hin | hnew
          · exact Or.inl hin
          · have hteq : t = ⟨key, d0.trial, cid, tag, d0.data⟩ :=
              List.mem_singleton.mp hnew
            have hp0 := List.find?_some hfind
            refine Or.inr ⟨d0, List.mem_cons_self _ _, ?_, p0, ?_, ?_⟩
            · rw [hteq]
            · exact List.mem_of_find?_eq_some hfind
            · exact beq_iff_eq.mp hp0
        · exact Or.inr ⟨d, List.mem_cons_of_mem _ hd, h1, p, hp, h2⟩

lemma pass2_paired_ingested {db : DB} {key : ℕ} {pfs : List ParamFile}
    {dfs : List DataFile} {conds : List CondRow} {trials : List TrialRow}
    {cs : List CondRow} {ts : List TrialRow} {rep : List ℕ}
    (h : pass2 db key pfs dfs conds trials = some (cs, ts, rep)) :
    ∀ d ∈ dfs, (∃ p ∈ pfs, p.trial = d.trial) →
      ∃ t ∈ ts, t.trial_number = d.trial := by
  induction dfs generalizing conds trials cs ts rep with
  | nil => intro d hd; cases hd
  | cons d0 rest ih =>
      intro d hd hpair
      rcases pass2_cons_inv h with ⟨hnf0, cs2, ts2, rep2, hrec, hres⟩ |
        ⟨p0, hfind, b, hpq, cid, hcid, tag, htag, hins, hrec⟩
      · rcases List.mem_cons.mp hd with rfl | hmem
        · obtain ⟨p, hp, hpd⟩ := hpair
          rw [List.find?_eq_none] at hnf0
          exact absurd (beq_iff_eq.mpr hpd) (by simpa using hnf0 p hp)
        · injection hres with h1 h2
          injection h2 with h2 h3
          subst h2
          exact ih hrec d hmem hpair
      · rcases List.mem_cons.mp hd with rfl | hmem
        · exact ⟨⟨key, d.trial, cid, tag, d.data⟩,
            pass2_trials_mono hrec _ (List.mem_append_right _ (List.mem_singleton.mpr rfl)),
            rfl⟩
        · exact ih hrec d hmem hpair

lemma make_speedgoat_inv {env : MakeEnv} {key : ℕ} {st : Store}
    {res : Store × List ℕ} (hsg : env.controller = "Speedgoat")
    (h : make env key st = some res) :
    ∃ roots db1 rep1 s cs ts rep2,
      insertRoot st.roots key = some roots ∧
      pass1 st.db env.paramFiles env.dataFiles = some (db1, rep1) ∧
      fetchSuccessState (insertTaskStates st.taskStates env.summary) = some s ∧
      pass2 db1 key env.paramFiles env.dataFiles st.behConds st.trials =
        some (cs, ts, rep2) ∧
      res = (⟨roots, insertTaskStates st.taskStates env.summary, db1, cs, ts⟩,
        rep1 ++ rep2) := by
  rw [make] at h
  cases hroot : insertRoot st.roots key <;> rw [hroot] at h <;> dsimp only at h
  · cases h
  · rename_i roots
    have hbeq : (env.controller == "Speedgoat") = true := beq_iff_eq.mpr hsg
    rw [hbeq] at h
    simp only [if_true] at h
    cases hp1 : pass1 st.db env.paramFiles env.dataFiles <;> rw [hp1] at h <;>
      dsimp only at h
    · cases h
    · rename_i pr1
      obtain ⟨db1, rep1⟩ := pr1
      dsimp only at h
      cases hss : fetchSuccessState (insertTaskStates st.taskStates env.summary) <;>
        rw [hss] at h <;> dsimp only at h
      · cases h
      · rename_i s
        cases hp2 : pass2 db1 key env.paramFiles env.dataFiles st.behConds st.trials <;>
          rw [hp2] at h <;> dsimp only at h
        · cases h
        · rename_i pr2
          obtain ⟨cs, ts, rep2⟩ := pr2
          dsimp only at h
          exact ⟨roots, db1, rep1, s, cs, ts, rep2, rfl, rfl, rfl, hp2,
            (Option.some.inj h).symm⟩

/-- C9: for a Speedgoat recording starting with no trial rows, a
parameter file with no matching data file (or a data file with no
matching parameter file) is reported as missing its counterpart and
produces no `Behavior.Trial` row, while every well-paired trial of the
same batch is still ingested. -/
theorem missing_counterpart_skips (env : MakeEnv) (key : ℕ) (st st' : Store)
    (rep : List ℕ) (hsg : env.controller = "Speedgoat")
    (hinit : st.trials = []) (h : make env key st = some (st', rep)) :
    (∀ p ∈ env.paramFiles, (¬ ∃ d ∈ env.dataFiles, d.trial = p.trial) →
      p.trial ∈ rep ∧ ¬ ∃ t ∈ st'.trials, t.trial_number = p.trial) ∧
      (∀ d ∈ env.dataFiles, (¬ ∃ p ∈ env.paramFiles, p.trial = d.trial) →
        d.trial ∈ rep ∧ ¬ ∃ t ∈ st'.trials, t.trial_number = d.trial) ∧
      (∀ d ∈ env.dataFiles, (∃ p ∈ env.paramFiles, p.trial = d.trial) →
        ∃ t ∈ st'.trials, t.trial_number = d.trial) := by
  obtain ⟨roots, db1, rep1, s, cs, ts, rep2, hroot, hp1, hss, hp2, hres⟩ :=
    make_speedgoat_inv hsg h
  injection hres with h1 h2
  subst h1
  subst h2
  rw [hinit] at hp2
  refine ⟨?_, ?_, ?_⟩
  · intro p hp hA
    have hnd : hasDataFile env.dataFiles p = false := by
      rw [hasDataFile, List.any_eq_false]
      intro d hd
      have : ¬ d.trial = p.trial := fun heq => hA ⟨d, hd, heq⟩
      simpa using this
    constructor
    · exact List.mem_append_left _ (pass1_reports hp1 p hp hnd)
    · rintro ⟨t, ht, htn⟩
      rcases pass2_trials_from hp2 t ht with hl | ⟨d, hd, hn1, p', hp', hn2⟩
      · cases hl
      · exact hA ⟨d, hd, hn1 ▸ htn⟩
  · intro d hd hB
    have hnf : (env.paramFiles.find? fun p => p.trial == d.trial) = none := by
      rw [List.find?_eq_none]
      intro p hp
      have : ¬ p.trial = d.trial := fun heq => hB ⟨p, hp, heq⟩
      simpa using this
    constructor
    · exact List.mem_append_right _ (pass2_reports hp2 d hd hnf)
    · rintro ⟨t, ht, htn⟩
      rcases pass2_trials_from hp2 t ht with hl | ⟨d', hd', hn1, p', hp', hn2⟩
      · cases hl
      · exact hB ⟨p', hp', by rw [hn2, ← hn1, htn]⟩
  · intro d hd hpair
    exact pass2_paired_ingested hp2 d hd hpair

/-- The empty store before ingesting recording 0. -/
def exStoreEmpty : Store :=
  ⟨[], [], DB.empty, [], []⟩

/-- A Speedgoat batch where the parameter file of trial 7 has no data
file and the data file of trial 9 has no parameter file; trial 1 is
well-paired. -/
def exEnvC9 : MakeEnv :=
  ⟨"Speedgoat", [⟨3, "Success"⟩], [⟨7, exParams1⟩, ⟨1, exParams1⟩],
   [⟨1, ⟨true⟩⟩, ⟨9, ⟨false⟩⟩]⟩

/-- The store produced by ingesting that batch: condition 0, one trial
row for trial 1, and nothing for trials 7 and 9. -/
def exStoreC9 : Store :=
  ⟨[0], [⟨3, "Success"⟩], exDB1, [⟨0, 0⟩], [⟨0, 1, 0, Value.num 0, ⟨true⟩⟩]⟩

/-- Witness for C9 at the concrete batch: trials 7 and 9 are reported
(`[7, 9]`), produce no trial row, and the paired trial 1 is ingested. -/
theorem missing_counterpart_skips_witness :
    (∀ p ∈ exEnvC9.paramFiles, (¬ ∃ d ∈ exEnvC9.dataFiles, d.trial = p.trial) →
      p.trial ∈ [7, 9] ∧ ¬ ∃ t ∈ exStoreC9.trials, t.trial_number = p.trial) ∧
      (∀ d ∈ exEnvC9.dataFiles, (¬ ∃ p ∈ exEnvC9.paramFiles, p.trial = d.trial) →
        d.trial ∈ [7, 9] ∧ ¬ ∃ t ∈ exStoreC9.trials, t.trial_number = d.trial) ∧
      (∀ d ∈ exEnvC9.dataFiles, (∃ p ∈ exEnvC9.paramFiles, p.trial = d.trial) →
        ∃ t ∈ exStoreC9.trials, t.trial_number = d.trial) :=
  missing_counterpart_skips exEnvC9 0 exStoreEmpty exStoreC9 [7, 9] rfl rfl
    (by decide)
